import Mathlib

/-!
Verification of the device-adapter concurrency engine of `fleascope-live`
(`src/fleascope_adapter.py`).

The embedding has two layers:

* a sequential layer: each method of `FleaScopeAdapter` becomes a Lean
  function on an explicit `Adapter` record, returning the updated record,
  the list of externally observable events the method performs (lock
  operations, device calls, Qt-signal emissions, toasts, sleeps), and an
  `Except` value recording whether the Python call returns normally or
  raises;
* a concurrent layer for `set_waveform`: an explicit interleaving
  semantics (`wstep`/`wrun`) over any number of threads each executing
  `set_waveform`, with each lock-protected section of the Python code as
  one atomic step, used to settle the coalescing claim.

Machine integers do not occur; sample batches are opaque lists.
-/

namespace FleaScopeLive

/-- The `state` field of `FleaScopeAdapter` (line 27 of
`fleascope_adapter.py`): one of the string literals `"running"`,
`"closing"`, `"step"`, `"paused"`. -/
inductive SState where
  | running
  | closing
  | stepState
  | paused
deriving DecidableEq

/-- Externally observable actions of an adapter method, in program order. -/
inductive Event where
  /-- `time.sleep` with the duration in milliseconds. -/
  | sleep (ms : Nat)
  /-- `self.deviceLock.acquire()`. -/
  | acquireDevice
  /-- `self.deviceLock.release()`. -/
  | releaseDevice
  /-- `self.queuelock.acquire()`. -/
  | acquireQueue
  /-- `self.queuelock.release()`. -/
  | releaseQueue
  /-- `self.waveformlock.acquire()`. -/
  | acquireWf
  /-- `self.waveformlock.release()`. -/
  | releaseWf
  /-- Assignment to `self.commandWaiting`. -/
  | setCommandWaiting (b : Bool)
  /-- `self.device.unblock()`. -/
  | unblock
  /-- `probe.read(capture_time, trigger)` — the capture device call. -/
  | devRead
  /-- `self.getProbe().calibrate_0()`. -/
  | devCalibrate0
  /-- `self.getProbe().calibrate_3v3()`. -/
  | devCalibrate3v3
  /-- `self.device.set_waveform(waveform, hz)`. -/
  | devSetWaveform (w hz : Nat)
  /-- `self.data.emit(data.index, data['bnc'])` carrying the batch. -/
  | dataEmit (data : List Int)
  /-- `self.toast_manager.emit(msg, kind)`. -/
  | toast (msg kind : String)
  /-- `self.configWidget.removeDevice()`. -/
  | configRemove
  /-- `self.delete_plot.emit()`. -/
  | deletePlot
  /-- `self.t.join()`. -/
  | threadJoin
  /-- Marker written by the concurrent model when thread `i` finishes its
  first `waveformlock` section (its request is now issued). -/
  | wWrote (i w hz : Nat)
deriving DecidableEq

/-- The mutable fields of one `FleaScopeAdapter`, plus the shared
`adapter_list` it holds a reference to (adapters are identified by
`selfId` in the list).  Locks are modelled by held-flags; the sequential
layer runs one call at a time, so acquiring a free lock always succeeds
and the flag records whether this adapter's device lock is held. -/
structure Adapter where
  state : SState
  commandWaiting : Bool
  deviceLockHeld : Bool
  target_waveform : Option (Nat × Nat)
  selfId : Nat
  adapter_list : List Nat
deriving DecidableEq

/-- Python `list.remove`: delete the first occurrence, raise `ValueError`
when the element is absent. -/
def pyListRemove (l : List Nat) (a : Nat) : Except String (List Nat) :=
  if a ∈ l then .ok (l.erase a) else .error "ValueError"

/-- `removeDevice` (lines 62–67): set `state = "closing"`, notify the
config widget, remove `self` from `adapter_list` (this raises
`ValueError` when `self` is not in the list, in which case
`delete_plot` is never emitted), emit `delete_plot`. -/
def removeDevice (s : Adapter) : Adapter × List Event × Except String Unit :=
  let s := { s with state := .closing }
  match pyListRemove s.adapter_list s.selfId with
  | .ok l => ({ s with adapter_list := l }, [.configRemove, .deletePlot], .ok ())
  | .error e => (s, [.configRemove], .error e)

/-- `pause` (lines 69–72): when not closing, set `state = "paused"` and
unblock the device; otherwise do nothing. -/
def pause (s : Adapter) : Adapter × List Event :=
  if s.state = .closing then (s, [])
  else ({ s with state := .paused }, [.unblock])

/-- `start` (lines 74–76): when not closing, set `state = "running"`;
otherwise do nothing. -/
def start (s : Adapter) : Adapter × List Event :=
  if s.state = .closing then (s, [])
  else ({ s with state := .running }, [])

/-- `shutdown` (lines 131–134): set `state = "closing"`, unblock the
device, join the background thread. -/
def shutdown (s : Adapter) : Adapter × List Event :=
  ({ s with state := .closing }, [.unblock, .threadJoin])

/-- Outcome of `probe.read` on one acquisition cycle: the returned batch,
or a raised transport exception. -/
inductive CaptureResult where
  | ok (data : List Int)
  | err
deriving DecidableEq

/-- Whether one iteration of the `update_data` loop falls through to the
next iteration or leaves the loop. -/
inductive LoopOutcome where
  | continues
  | exits
deriving DecidableEq

/-- One iteration of the `while` loop of `update_data` (lines 39–60),
from the `while not self.is_closing()` guard to the end of the body.
`cap` is the outcome of the `probe.read` call if one is made.
Returns the updated adapter, the events of the iteration, whether the
loop continues, and whether the iteration returns normally (the
`ValueError` that `removeDevice` can raise propagates). -/
def updateDataStep (s : Adapter) (cap : CaptureResult) :
    Adapter × List Event × LoopOutcome × Except String Unit :=
  if s.state = .closing then (s, [], .exits, .ok ())
  else if s.state = .paused then (s, [.sleep 300], .continues, .ok ())
  else if s.commandWaiting then (s, [.sleep 100], .continues, .ok ())
  else
    let s := { s with deviceLockHeld := true }
    match cap with
    | .err =>
      let s := { s with deviceLockHeld := false }
      let (s, ev, r) := removeDevice s
      (s,
       [.acquireDevice, .devRead, .releaseDevice,
        .toast "Lost connection" "error"] ++ ev,
       .exits, r)
    | .ok data =>
      ({ s with deviceLockHeld := false },
       [.acquireDevice, .devRead]
         ++ (if data.length ≠ 0 then [.dataEmit data] else [])
         ++ [.releaseDevice],
       .continues, .ok ())

/-- `grabDeviceLock` (lines 88–94): take the ordering lock, raise the
intent flag, unblock the device (`capture_settings_changed`), take the
device lock, clear the intent flag, release the ordering lock. -/
def grabDeviceLock (s : Adapter) : Adapter × List Event :=
  ({ s with commandWaiting := false, deviceLockHeld := true },
   [.acquireQueue, .setCommandWaiting true, .unblock, .acquireDevice,
    .setCommandWaiting false, .releaseQueue])

/-- `cal_0` (lines 96–101): run the gate handoff, call `calibrate_0`
(which raises iff `devFails`), release the device lock, toast success.
On a device failure the exception propagates: the release and the toast
are never reached. -/
def cal_0 (s : Adapter) (devFails : Bool) :
    Adapter × List Event × Except String Unit :=
  let (s, ev) := grabDeviceLock s
  if devFails then (s, ev ++ [.devCalibrate0], .error "DeviceError")
  else
    ({ s with deviceLockHeld := false },
     ev ++ [.devCalibrate0, .releaseDevice,
            .toast "Calibrated to 0V" "success"],
     .ok ())

/-- `cal_3v3` (lines 103–108).  Line 105 reads `self.grabDeviceLock`
without calling it — a no-op expression — so no lock is taken; then
`calibrate_3v3` runs, then `deviceLock.release()` executes: when the
lock is not held it raises `RuntimeError`, otherwise it releases a lock
this call never acquired. -/
def cal_3v3 (s : Adapter) (devFails : Bool) :
    Adapter × List Event × Except String Unit :=
  if devFails then (s, [.devCalibrate3v3], .error "DeviceError")
  else if s.deviceLockHeld then
    ({ s with deviceLockHeld := false },
     [.devCalibrate3v3, .releaseDevice,
      .toast "Calibrated to 3.3V" "success"],
     .ok ())
  else (s, [.devCalibrate3v3], .error "RuntimeError")

/-- `set_waveform` (lines 110–126), sequential (uncontended) view: write
the pending slot under `waveformlock`, toast; return at once when a
pending value already existed; otherwise run the gate handoff, re-read
and clear the slot under `waveformlock`, call the device (raises iff
`devFails`), release the device lock. -/
def set_waveform (s : Adapter) (w hz : Nat) (devFails : Bool) :
    Adapter × List Event × Except String Unit :=
  let amIFirst := s.target_waveform.isNone
  let s := { s with target_waveform := some (w, hz) }
  let ev0 : List Event :=
    [.acquireWf,
     .toast ("Setting waveform to " ++ toString w ++ " at "
       ++ toString hz ++ "Hz") "info",
     .releaseWf]
  if !amIFirst then (s, ev0, .ok ())
  else
    let (s, ev1) := grabDeviceLock s
    match s.target_waveform with
    | none => (s, ev0 ++ ev1 ++ [.acquireWf], .error "TypeError")
    | some (w2, hz2) =>
      let s := { s with target_waveform := none }
      if devFails then
        (s,
         ev0 ++ ev1 ++ [.acquireWf, .releaseWf, .devSetWaveform w2 hz2],
         .error "DeviceError")
      else
        ({ s with deviceLockHeld := false },
         ev0 ++ ev1 ++ [.acquireWf, .releaseWf, .devSetWaveform w2 hz2,
                        .releaseDevice],
         .ok ())

/-- Is this event a device-directed call (capture or command)? -/
def isDevCall : Event → Bool
  | .devRead => true
  | .devCalibrate0 => true
  | .devCalibrate3v3 => true
  | .devSetWaveform _ _ => true
  | _ => false

/-- Is the device lock held just before position `i` of trace `tr`
(more acquires than releases in the strict prefix)? -/
def devHeldAt (tr : List Event) (i : Nat) : Bool :=
  (tr.take i).count .acquireDevice > (tr.take i).count .releaseDevice

/-- Every device-directed call in the trace happens while the device
lock is held. -/
def devCallsUnderLock (tr : List Event) : Bool :=
  (List.range tr.length).all fun i =>
    !isDevCall (tr.getD i .unblock) || devHeldAt tr i

/-!
## Concurrent model of `set_waveform`

Any number of threads each execute `set_waveform` (lines 110–126) on one
shared adapter.  Each lock-protected section of the Python code is one
atomic step of a thread:

* `writeSlot` — lines 113–117: under `waveformlock`, record whether the
  slot was empty (`am_I_first_update`), overwrite it, toast.  A thread
  that was not first returns (`finished`); the first proceeds to the gate.
* `gate` — `grabDeviceLock()`, lines 88–94: blocked while the device
  lock is held, otherwise acquires it (the `queuelock` acquisition, the
  `commandWaiting` toggles and the `unblock` happen inside).
* `drain` — lines 121–124: under `waveformlock`, read and clear the
  slot.  Unpacking a `None` slot would raise `TypeError` (`faulted`).
* `callDev` — line 125: `self.device.set_waveform(waveform, hz)`.
* `unlock` — line 126: `self.deviceLock.release()`.
-/

/-- Program counter of one `set_waveform` thread. -/
inductive WPhase where
  | writeSlot
  | gate
  | drain
  | callDev
  | unlock
  | finished
  | faulted
deriving DecidableEq

/-- One thread running `set_waveform w hz`; `reg` holds the value read
from the slot by `drain` (the local variables `waveform, hz` at line
122). -/
structure WThread where
  w : Nat
  hz : Nat
  phase : WPhase
  reg : Option (Nat × Nat)
deriving DecidableEq

/-- Shared state of the concurrent `set_waveform` model:
`self.target_waveform`, the device lock, the threads, and the trace. -/
structure CoState where
  target : Option (Nat × Nat)
  deviceLockHeld : Bool
  threads : List WThread
  trace : List Event
deriving DecidableEq

/-- One scheduler step: thread `i` (if it exists) performs its next
atomic action; a thread blocked on the device lock, finished or faulted
leaves the state unchanged. -/
def wstep (s : CoState) (i : Nat) : CoState :=
  match s.threads[i]? with
  | none => s
  | some t =>
    match t.phase with
    | .writeSlot =>
      let isFirst := s.target.isNone
      { s with
        target := some (t.w, t.hz)
        threads := s.threads.set i
          { t with phase := if isFirst then .gate else .finished }
        trace := s.trace ++ [.wWrote i t.w t.hz] }
    | .gate =>
      if s.deviceLockHeld then s
      else
        { s with
          deviceLockHeld := true
          threads := s.threads.set i { t with phase := .drain }
          trace := s.trace ++ [.acquireDevice] }
    | .drain =>
      match s.target with
      | some v =>
        { s with
          target := none
          threads := s.threads.set i { t with phase := .callDev, reg := some v } }
      | none =>
        { s with threads := s.threads.set i { t with phase := .faulted } }
    | .callDev =>
      match t.reg with
      | some (w, hz) =>
        { s with
          threads := s.threads.set i { t with phase := .unlock }
          trace := s.trace ++ [.devSetWaveform w hz] }
      | none =>
        { s with threads := s.threads.set i { t with phase := .faulted } }
    | .unlock =>
      { s with
        deviceLockHeld := false
        threads := s.threads.set i { t with phase := .finished } }
    | .finished => s
    | .faulted => s

/-- Run a schedule (a list of thread indices) from a state. -/
def wrun (s : CoState) (sched : List Nat) : CoState :=
  sched.foldl wstep s

/-- Initial state for threads with the given `(kind, freq)` arguments:
empty slot, device lock free. -/
def winit (args : List (Nat × Nat)) : CoState :=
  { target := none
    deviceLockHeld := false
    threads := args.map fun a =>
      { w := a.1, hz := a.2, phase := .writeSlot, reg := none }
    trace := [] }

/-- The `(kind, freq)` arguments of the device `set_waveform` calls in a
trace, in order. -/
def devSetCalls (tr : List Event) : List (Nat × Nat) :=
  tr.filterMap fun e =>
    match e with
    | .devSetWaveform w hz => some (w, hz)
    | _ => none

/-- All threads have returned normally. -/
def allFinished (s : CoState) : Bool :=
  s.threads.all fun t => t.phase = .finished

/-- Request `i` was issued (its slot write happened) strictly before the
first device call of the trace; vacuously true when no device call
occurs. -/
def issuedBeforeFirstCall (tr : List Event) (i : Nat) : Bool :=
  match tr.findIdx? (fun e =>
      match e with
      | .wWrote j _ _ => j = i
      | _ => false) with
  | none => false
  | some wi =>
    match tr.findIdx? (fun e => isDevCall e) with
    | none => true
    | some c => wi < c

/-- Claim C2 as stated: whenever N ≥ 1 `set_waveform` requests are all
issued before the device finishes applying the first one, the completed
run performs exactly one device call. -/
def claimC2Stated : Prop :=
  ∀ (args : List (Nat × Nat)) (sched : List Nat),
    args ≠ [] →
    allFinished (wrun (winit args) sched) = true →
    (∀ i < args.length,
      issuedBeforeFirstCall (wrun (winit args) sched).trace i = true) →
    (devSetCalls (wrun (winit args) sched).trace).length = 1

/-- The `(kind, freq)` argument pair of thread `j`. -/
def argOf (s : CoState) (j : Nat) : Nat × Nat :=
  match s.threads[j]? with
  | some t => (t.w, t.hz)
  | none => (0, 0)

/-- Invariant once a single live thread `f` remains, bound to apply the
value `v` held in (or drained from) the slot: every other thread is
finished, and `f`'s progress through gate → drain → call → unlock
determines the lock, the slot, the drained register and the device
calls made so far. -/
def SoloInv (v : Nat × Nat) (f : Nat) (s : CoState) : Prop :=
  (∀ j, j ≠ f → ∀ t, s.threads[j]? = some t → t.phase = .finished) ∧
  ∃ t, s.threads[f]? = some t ∧
    ((t.phase = .gate ∧ s.target = some v ∧ s.deviceLockHeld = false ∧
        devSetCalls s.trace = []) ∨
     (t.phase = .drain ∧ s.target = some v ∧ s.deviceLockHeld = true ∧
        devSetCalls s.trace = []) ∨
     (t.phase = .callDev ∧ t.reg = some v ∧ s.deviceLockHeld = true ∧
        devSetCalls s.trace = []) ∨
     (t.phase = .unlock ∧ s.deviceLockHeld = true ∧
        devSetCalls s.trace = [v]) ∨
     (t.phase = .finished ∧ devSetCalls s.trace = [v]))

/-- The adapter as `__init__` (lines 17–33) leaves it: running, no
command waiting, all locks free, no pending waveform; registered as the
only adapter in the list. -/
def initialAdapter : Adapter :=
  { state := .running
    commandWaiting := false
    deviceLockHeld := false
    target_waveform := none
    selfId := 0
    adapter_list := [0] }

/-- Number of toast notifications in a trace. -/
def toastCount (tr : List Event) : Nat :=
  tr.countP fun e =>
    match e with
    | .toast _ _ => true
    | _ => false

/-- The command-gate handoff ordering of a command trace: the intent
flag is cleared and the ordering lock is released strictly after the
device lock is acquired and strictly before the command's device call
(which itself follows the handoff). -/
def gateOrderOk (tr : List Event) : Bool :=
  match tr.findIdx? (· == Event.acquireDevice),
        tr.findIdx? (· == Event.setCommandWaiting false),
        tr.findIdx? (· == Event.releaseQueue),
        tr.findIdx? (fun e => isDevCall e) with
  | some a, some c, some r, some d => a < c && c < r && r < d
  | _, _, _, _ => false

theorem devSetCalls_append (a b : List Event) :
    devSetCalls (a ++ b) = devSetCalls a ++ devSetCalls b :=
  List.filterMap_append a b _

/-- Scheduler steps never change a thread's arguments. -/
theorem argOf_wstep (s : CoState) (i j : Nat) :
    argOf (wstep s i) j = argOf s j := by
  rcases hi : s.threads[i]? with _ | t
  · simp [wstep, hi]
  have hilen : i < s.threads.length := by
    by_contra hlt
    rw [List.getElem?_eq_none (Nat.le_of_not_lt hlt)] at hi
    exact absurd hi (by simp)
  have hset : ∀ t' : WThread, t'.w = t.w → t'.hz = t.hz →
      argOf { s with threads := s.threads.set i t',
                     target := (wstep s i).target,
                     deviceLockHeld := (wstep s i).deviceLockHeld,
                     trace := (wstep s i).trace } j = argOf s j := by
    intro t' hw hhz
    by_cases hij : i = j
    · subst hij
      simp [argOf, List.getElem?_set_self hilen, hi, hw, hhz]
    · simp [argOf, List.getElem?_set_ne hij]
  rcases hph : t.phase
  all_goals simp only [wstep, hi, hph]
  · exact hset _ rfl rfl
  · by_cases hl : s.deviceLockHeld = true
    · simp [hl]
    · simp only [Bool.not_eq_true] at hl
      simp only [hl, if_false, Bool.false_eq_true]
      exact hset _ rfl rfl
  · rcases ht : s.target with _ | v
    · exact hset _ rfl rfl
    · exact hset _ rfl rfl
  · rcases hr : t.reg with _ | v
    · exact hset _ rfl rfl
    · rcases v with ⟨w, hz⟩
      exact hset _ rfl rfl
  · exact hset _ rfl rfl

theorem argOf_winit (args : List (Nat × Nat)) (j : Nat) :
    argOf (winit args) j = args.getD j (0, 0) := by
  simp only [argOf, winit, List.getElem?_map, List.getD_eq_getElem?_getD]
  rcases h : args[j]? with _ | a
  · simp
  · simp

/-- Running a block of `writeSlot` steps of distinct threads while the
slot already holds a value: every scheduled thread overwrites the slot
and returns at once, the slot ends holding the last scheduled thread's
arguments, no other thread and nothing else changes, and no device call
is made. -/
theorem writes_go (σ : List Nat) (s : CoState) (v : Nat × Nat)
    (hnd : σ.Nodup)
    (hmem : ∀ j ∈ σ, j < s.threads.length)
    (hws : ∀ j ∈ σ, (s.threads[j]?).map WThread.phase = some .writeSlot)
    (htar : s.target = some v)
    (hlock : s.deviceLockHeld = false) :
    (wrun s σ).target = some (match σ.getLast? with
      | none => v
      | some j => argOf s j) ∧
    (wrun s σ).deviceLockHeld = false ∧
    (∀ j ∈ σ, ((wrun s σ).threads[j]?).map WThread.phase = some .finished) ∧
    (∀ j, j ∉ σ → (wrun s σ).threads[j]? = s.threads[j]?) ∧
    devSetCalls (wrun s σ).trace = devSetCalls s.trace ∧
    (wrun s σ).threads.length = s.threads.length := by
  induction σ generalizing s v with
  | nil =>
    exact ⟨htar, hlock, fun j hj => absurd hj (by simp), fun j _ => rfl, rfl, rfl⟩
  | cons h σ' ih =>
    have hhlen : h < s.threads.length := hmem h (by simp)
    rcases hget : s.threads[h]? with _ | t
    · rw [List.getElem?_eq_none_iff] at hget
      omega
    have hph : t.phase = .writeSlot := by
      have := hws h (by simp)
      rw [hget] at this
      simpa using this
    have hnotfirst : s.target.isNone = false := by rw [htar]; rfl
    -- the one-step successor state
    have hstep : wstep s h =
        { s with
          target := some (t.w, t.hz)
          threads := s.threads.set h { t with phase := .finished }
          trace := s.trace ++ [.wWrote h t.w t.hz] } := by
      simp [wstep, hget, hph, hnotfirst]
    have hrun : wrun s (h :: σ') = wrun (wstep s h) σ' := rfl
    have hnd' : σ'.Nodup := hnd.of_cons
    have hnotmem : h ∉ σ' := by
      intro hc
      exact (List.nodup_cons.mp hnd).1 hc
    have hunch : ∀ j, j ≠ h → (wstep s h).threads[j]? = s.threads[j]? := by
      intro j hj
      rw [hstep]
      exact List.getElem?_set_ne (fun he => hj he.symm)
    have hlen' : (wstep s h).threads.length = s.threads.length := by
      rw [hstep]; simp
    have hmem' : ∀ j ∈ σ', j < (wstep s h).threads.length := by
      intro j hj; rw [hlen']; exact hmem j (by simp [hj])
    have hws' : ∀ j ∈ σ',
        ((wstep s h).threads[j]?).map WThread.phase = some .writeSlot := by
      intro j hj
      rw [hunch j (fun he => hnotmem (he ▸ hj))]
      exact hws j (by simp [hj])
    have htar' : (wstep s h).target = some (t.w, t.hz) := by rw [hstep]
    have hlock' : (wstep s h).deviceLockHeld = false := by rw [hstep]; exact hlock
    obtain ⟨ctar, clock, cfin, cunch, ccalls, clen⟩ :=
      ih (wstep s h) (t.w, t.hz) hnd' hmem' hws' htar' hlock'
    refine ⟨?_, ?_, ?_, ?_, ?_, ?_⟩
    · rw [hrun, ctar]
      rcases σ' with _ | ⟨a, σ''⟩
      · simp [argOf, hget]
      · simp only [List.getLast?_cons_cons]
        rcases hl : (a :: σ'').getLast? with _ | j
        · simp at hl
        · exact congrArg some (argOf_wstep s h j)
    · rw [hrun]; exact clock
    · intro j hj
      rcases List.mem_cons.mp hj with he | hm
      · subst he
        rw [hrun, cunch j hnotmem, hstep]
        simp [List.getElem?_set_self hhlen]
      · exact cfin j hm
    · intro j hj
      rw [hrun, cunch j (fun hc => hj (by simp [hc])),
        hunch j (fun he => hj (by simp [he]))]
    · rw [hrun, ccalls, hstep]
      simp [devSetCalls_append, devSetCalls]
    · rw [hrun, clen, hlen']

/-- One scheduler step preserves `SoloInv`. -/
theorem solo_step (v : Nat × Nat) (f : Nat) (s : CoState) (i : Nat)
    (h : SoloInv v f s) : SoloInv v f (wstep s i) := by
  obtain ⟨hothers, t, hf, hcases⟩ := h
  have hflen : f < s.threads.length := by
    by_contra hlt
    rw [List.getElem?_eq_none (Nat.le_of_not_lt hlt)] at hf
    exact absurd hf (by simp)
  by_cases hif : i = f
  · subst hif
    rcases hcases with ⟨hph, htar, hlock, hcalls⟩ | ⟨hph, htar, hlock, hcalls⟩ |
      ⟨hph, hreg, hlock, hcalls⟩ | ⟨hph, hlock, hcalls⟩ | ⟨hph, hcalls⟩
    · -- gate, lock free: acquire, go to drain
      have hstep : wstep s i =
          { s with
            deviceLockHeld := true
            threads := s.threads.set i { t with phase := .drain }
            trace := s.trace ++ [.acquireDevice] } := by
        simp [wstep, hf, hph, hlock]
      refine ⟨?_, { t with phase := .drain }, ?_, ?_⟩
      · intro j hj t' ht'
        rw [hstep] at ht'
        simp only at ht'
        rw [List.getElem?_set_ne (fun he => hj he.symm)] at ht'
        exact hothers j hj t' ht'
      · rw [hstep]
        simp [List.getElem?_set_self hflen]
      · refine Or.inr (Or.inl ⟨rfl, ?_, ?_, ?_⟩) <;> rw [hstep]
        · exact htar
        · rw [devSetCalls_append, hcalls]; rfl
    · -- drain, slot full: clear it into the register, go to callDev
      have hstep : wstep s i =
          { s with
            target := none
            threads := s.threads.set i
              { t with phase := .callDev, reg := some v } } := by
        simp [wstep, hf, hph, htar]
      refine ⟨?_, { t with phase := .callDev, reg := some v }, ?_, ?_⟩
      · intro j hj t' ht'
        rw [hstep] at ht'
        simp only at ht'
        rw [List.getElem?_set_ne (fun he => hj he.symm)] at ht'
        exact hothers j hj t' ht'
      · rw [hstep]
        simp [List.getElem?_set_self hflen]
      · refine Or.inr (Or.inr (Or.inl ⟨rfl, rfl, ?_, ?_⟩)) <;> rw [hstep]
        · exact hlock
        · exact hcalls
    · -- callDev: emit the device call, go to unlock
      have hstep : wstep s i =
          { s with
            threads := s.threads.set i { t with phase := .unlock }
            trace := s.trace ++ [.devSetWaveform v.1 v.2] } := by
        simp [wstep, hf, hph, hreg]
      refine ⟨?_, { t with phase := .unlock }, ?_, ?_⟩
      · intro j hj t' ht'
        rw [hstep] at ht'
        simp only at ht'
        rw [List.getElem?_set_ne (fun he => hj he.symm)] at ht'
        exact hothers j hj t' ht'
      · rw [hstep]
        simp [List.getElem?_set_self hflen]
      · refine Or.inr (Or.inr (Or.inr (Or.inl ⟨rfl, ?_, ?_⟩))) <;> rw [hstep]
        · exact hlock
        · rw [devSetCalls_append, hcalls]; rfl
    · -- unlock: release the lock, finish
      have hstep : wstep s i =
          { s with
            deviceLockHeld := false
            threads := s.threads.set i { t with phase := .finished } } := by
        simp [wstep, hf, hph]
      refine ⟨?_, { t with phase := .finished }, ?_, ?_⟩
      · intro j hj t' ht'
        rw [hstep] at ht'
        simp only at ht'
        rw [List.getElem?_set_ne (fun he => hj he.symm)] at ht'
        exact hothers j hj t' ht'
      · rw [hstep]
        simp [List.getElem?_set_self hflen]
      · refine Or.inr (Or.inr (Or.inr (Or.inr ⟨rfl, ?_⟩)))
        rw [hstep]
        exact hcalls
    · -- finished: no-op
      have hstep : wstep s i = s := by simp [wstep, hf, hph]
      rw [hstep]
      exact ⟨hothers, t, hf, Or.inr (Or.inr (Or.inr (Or.inr ⟨hph, hcalls⟩)))⟩
  · -- another thread: finished or absent, hence a no-op
    rcases hi : s.threads[i]? with _ | ti
    · have hstep : wstep s i = s := by simp [wstep, hi]
      rw [hstep]
      exact ⟨hothers, t, hf, hcases⟩
    · have hph : ti.phase = .finished := hothers i hif ti hi
      have hstep : wstep s i = s := by simp [wstep, hi, hph]
      rw [hstep]
      exact ⟨hothers, t, hf, hcases⟩

/-- `SoloInv` is preserved by any schedule. -/
theorem solo_run (v : Nat × Nat) (f : Nat) (s : CoState) (σ : List Nat)
    (h : SoloInv v f s) : SoloInv v f (wrun s σ) := by
  induction σ generalizing s with
  | nil => exact h
  | cons i σ' ih => exact ih (wstep s i) (solo_step v f s i h)

/-- C2 (amended): coalescing, proved over every interleaving of every
number of threads, with the window corrected from "before the device
finishes applying the first" to "before the first request drains the
pending slot".  When all N requests are issued (complete their slot
write, in issue order `f :: σ₁`) before the first request drains the
slot, then (1) every request but the first returns immediately after
its slot write, (2) however the rest is scheduled, at most one device
`set_waveform` call is made and it carries the last issued request's
arguments (the slot being re-read and cleared only in the `drain` step,
after the device lock is acquired in the `gate` step), and (3) when all
threads have returned, exactly that one device call has been made. -/
theorem coalescing_run (args : List (Nat × Nat)) (f : Nat) (σ₁ σ₂ : List Nat)
    (hperm : (f :: σ₁).Perm (List.range args.length)) :
    (∀ j ∈ σ₁,
      ((wrun (winit args) (f :: σ₁)).threads[j]?).map WThread.phase
        = some .finished) ∧
    (devSetCalls (wrun (wrun (winit args) (f :: σ₁)) σ₂).trace = [] ∨
     devSetCalls (wrun (wrun (winit args) (f :: σ₁)) σ₂).trace
       = [args.getD (σ₁.getLastD f) (0, 0)]) ∧
    (allFinished (wrun (wrun (winit args) (f :: σ₁)) σ₂) = true →
     devSetCalls (wrun (wrun (winit args) (f :: σ₁)) σ₂).trace
       = [args.getD (σ₁.getLastD f) (0, 0)]) := by
  have hnodup : (f :: σ₁).Nodup :=
    hperm.nodup_iff.symm.mp (List.nodup_range _)
  have hfmem : f ∉ σ₁ := (List.nodup_cons.mp hnodup).1
  have hnd1 : σ₁.Nodup := (List.nodup_cons.mp hnodup).2
  have hlt : ∀ j ∈ (f :: σ₁), j < args.length := fun j hj =>
    List.mem_range.mp (hperm.mem_iff.mp hj)
  have hcover : ∀ j < args.length, j ∈ (f :: σ₁) := fun j hj =>
    hperm.mem_iff.mpr (List.mem_range.mpr hj)
  have hflt : f < args.length := hlt f (by simp)
  rcases ha : args[f]? with _ | a
  · rw [List.getElem?_eq_none_iff] at ha
    omega
  have hgetDf : args.getD f (0, 0) = a := by
    rw [List.getD_eq_getElem?_getD, ha]
    rfl
  have hwlen : (winit args).threads.length = args.length := by
    simp [winit]
  have hwinit : ∀ j : Nat, (winit args).threads[j]? =
      Option.map (fun (b : Nat × Nat) => (⟨b.1, b.2, .writeSlot, none⟩ : WThread))
        args[j]? := by
    intro j
    simp [winit, List.getElem?_map]
  have hwf : (winit args).threads[f]? = some ⟨a.1, a.2, .writeSlot, none⟩ := by
    rw [hwinit, ha]
    rfl
  -- the first issued request takes the slot and heads for the gate
  have hs1 : wstep (winit args) f =
      { target := some (a.1, a.2)
        deviceLockHeld := false
        threads := (winit args).threads.set f ⟨a.1, a.2, .gate, none⟩
        trace := [.wWrote f a.1 a.2] } := by
    simp only [wstep, hwf]
    simp [winit]
  have hs1tar : (wstep (winit args) f).target = some (a.1, a.2) := by
    rw [hs1]
  have hs1lock : (wstep (winit args) f).deviceLockHeld = false := by
    rw [hs1]
  have hs1len : (wstep (winit args) f).threads.length = args.length := by
    rw [hs1]
    simpa using hwlen
  have hs1calls : devSetCalls (wstep (winit args) f).trace = [] := by
    rw [hs1]
    rfl
  have hs1f : (wstep (winit args) f).threads[f]? =
      some ⟨a.1, a.2, .gate, none⟩ := by
    rw [hs1]
    simpa using List.getElem?_set_self (by rw [hwlen]; exact hflt)
  have hs1other : ∀ j, j ≠ f →
      (wstep (winit args) f).threads[j]? = (winit args).threads[j]? := by
    intro j hj
    rw [hs1]
    exact List.getElem?_set_ne (fun he => hj he.symm)
  have hargOf1 : ∀ j, argOf (wstep (winit args) f) j = args.getD j (0, 0) :=
    fun j => (argOf_wstep (winit args) f j).trans (argOf_winit args j)
  -- run the remaining issues through `writes_go`
  obtain ⟨ctar, clock, cfin, cunch, ccalls, clen⟩ :=
    writes_go σ₁ (wstep (winit args) f) (a.1, a.2) hnd1
      (fun j hj => by rw [hs1len]; exact hlt j (by simp [hj]))
      (fun j hj => by
        rw [hs1other j (fun he => hfmem (he ▸ hj)), hwinit]
        rcases hb : args[j]? with _ | b
        · rw [List.getElem?_eq_none_iff] at hb
          exact absurd (hlt j (by simp [hj])) (by omega)
        · rfl)
      hs1tar hs1lock
  have hrun1 : wrun (winit args) (f :: σ₁) = wrun (wstep (winit args) f) σ₁ :=
    rfl
  -- the value the slot holds once all requests are issued
  have hv : (match σ₁.getLast? with
      | none => (a.1, a.2)
      | some j => argOf (wstep (winit args) f) j)
      = args.getD (σ₁.getLastD f) (0, 0) := by
    rw [List.getLastD_eq_getLast?]
    rcases hl : σ₁.getLast? with _ | j
    · simp only [hl]
      show (a.1, a.2) = args.getD f (0, 0)
      rw [hgetDf]
    · simp only [hl]
      show argOf (wstep (winit args) f) j = args.getD j (0, 0)
      exact hargOf1 j
  -- the mid state satisfies the solo invariant
  have hsolo : SoloInv (args.getD (σ₁.getLastD f) (0, 0)) f
      (wrun (winit args) (f :: σ₁)) := by
    rw [hrun1]
    refine ⟨?_, ⟨a.1, a.2, .gate, none⟩, ?_, Or.inl ⟨rfl, ?_, clock, ?_⟩⟩
    · intro j hj t ht
      have hjlen : j < args.length := by
        by_contra hge
        rw [List.getElem?_eq_none (by rw [clen, hs1len]; omega)] at ht
        exact absurd ht (by simp)
      have : j ∈ σ₁ := by
        rcases List.mem_cons.mp (hcover j hjlen) with he | hm
        · exact absurd he hj
        · exact hm
      have := cfin j this
      rw [ht] at this
      simpa using this
    · rw [cunch f hfmem]
      exact hs1f
    · rw [ctar, hv]
    · rw [ccalls, hs1calls]
  have hfin := solo_run _ f _ σ₂ hsolo
  obtain ⟨_, tf, htf, hdisj⟩ := hfin
  refine ⟨by rw [hrun1]; exact cfin, ?_, ?_⟩
  · rcases hdisj with ⟨_, _, _, hc⟩ | ⟨_, _, _, hc⟩ | ⟨_, _, _, hc⟩ |
      ⟨_, _, hc⟩ | ⟨_, hc⟩
    · exact Or.inl hc
    · exact Or.inl hc
    · exact Or.inl hc
    · exact Or.inr hc
    · exact Or.inr hc
  · intro hall
    have hfinished : tf.phase = .finished := by
      have hmem : tf ∈ (wrun (wrun (winit args) (f :: σ₁)) σ₂).threads :=
        List.getElem?_mem htf
      have := List.all_eq_true.mp hall tf hmem
      simpa using this
    rcases hdisj with ⟨hp, _, _, _⟩ | ⟨hp, _, _, _⟩ | ⟨hp, _, _, _⟩ |
      ⟨hp, _, _⟩ | ⟨_, hc⟩
    · rw [hfinished] at hp
      exact absurd hp (by simp)
    · rw [hfinished] at hp
      exact absurd hp (by simp)
    · rw [hfinished] at hp
      exact absurd hp (by simp)
    · rw [hfinished] at hp
      exact absurd hp (by simp)
    · exact hc

/-- `removeDevice` always leaves the state Closing, whether or not the
registry removal raises. -/
theorem removeDevice_state (s : Adapter) : (removeDevice s).1.state = .closing := by
  rcases h : pyListRemove s.adapter_list s.selfId with l | e <;>
    simp [removeDevice, h]

/-!
## Claims
-/

/-- C1: every instrument-directed operation (the capture read of the
acquisition loop, and the device calls of `cal_0`, `cal_3v3` and
`set_waveform`) is claimed to run while `deviceLock` is held.  This
holds for the loop, `cal_0` and `set_waveform`, but `cal_3v3` violates
it: line 105 evaluates `self.grabDeviceLock` without calling it, so
`calibrate_3v3` executes with no lock held (and line 107 then releases
a lock this command never acquired). -/
theorem cal3v3_device_call_without_lock :
    devCallsUnderLock (updateDataStep initialAdapter (.ok [1])).2.1 = true ∧
    devCallsUnderLock (cal_0 initialAdapter false).2.1 = true ∧
    devCallsUnderLock (set_waveform initialAdapter 5 1000 false).2.1 = true ∧
    devCallsUnderLock (cal_3v3 initialAdapter false).2.1 = false := by
  decide

/-- C3 counterexample: invoking `removeDevice` twice on the same
adapter.  The second invocation starts from `state = Closing` but does
not no-op: it emits the config-widget removal notification again and
raises `ValueError` from the registry removal. -/
theorem removeDevice_twice_raises :
    (removeDevice initialAdapter).1.state = .closing ∧
    removeDevice (removeDevice initialAdapter).1
      = ((removeDevice initialAdapter).1, [.configRemove],
         .error "ValueError") :=
  ⟨rfl, rfl⟩

/-- C3 (amended): removal is exactly-once only because the program calls
it once — `removeDevice` itself checks nothing.  The first invocation
performs the Closing transition, removes the adapter from the registry
and notifies once; a second invocation on the same adapter repeats the
transition and the config-widget notification and raises `ValueError`
from the registry removal instead of observing Closing and no-opping. -/
theorem removeDevice_not_idempotent (s : Adapter)
    (hmem : s.selfId ∈ s.adapter_list) (hnd : s.adapter_list.Nodup) :
    (removeDevice s).1.state = .closing ∧
    s.selfId ∉ (removeDevice s).1.adapter_list ∧
    (removeDevice s).2.1 = [.configRemove, .deletePlot] ∧
    (removeDevice s).2.2 = .ok () ∧
    removeDevice (removeDevice s).1
      = ((removeDevice s).1, [.configRemove], .error "ValueError") := by
  have h1 : removeDevice s =
      ({ s with
          state := .closing
          adapter_list := s.adapter_list.erase s.selfId },
       [.configRemove, .deletePlot], .ok ()) := by
    simp [removeDevice, pyListRemove, hmem]
  have hne : s.selfId ∉ s.adapter_list.erase s.selfId := hnd.not_mem_erase
  refine ⟨by rw [h1], by rw [h1]; exact hne, by rw [h1], by rw [h1], ?_⟩
  rw [h1]
  simp [removeDevice, pyListRemove, hne]

theorem removeDevice_not_idempotent_witness :
    (initialAdapter.selfId ∈ initialAdapter.adapter_list ∧
      initialAdapter.adapter_list.Nodup) ∧
    ((removeDevice initialAdapter).1.state = .closing ∧
     initialAdapter.selfId ∉ (removeDevice initialAdapter).1.adapter_list ∧
     (removeDevice initialAdapter).2.1 = [.configRemove, .deletePlot] ∧
     (removeDevice initialAdapter).2.2 = .ok () ∧
     removeDevice (removeDevice initialAdapter).1
       = ((removeDevice initialAdapter).1, [.configRemove],
          .error "ValueError")) :=
  ⟨⟨by decide, by decide⟩,
   removeDevice_not_idempotent initialAdapter (by decide) (by decide)⟩

/-- C4: a failed capture in the acquisition loop releases the device
lock, emits exactly one (error) toast, transitions the adapter to
Closing, removes it from the registry, and exits the loop after the one
capture attempt — no retry. -/
theorem capture_failure_fatal (s : Adapter)
    (h1 : s.state = .running) (h2 : s.commandWaiting = false)
    (hmem : s.selfId ∈ s.adapter_list) (hnd : s.adapter_list.Nodup) :
    (updateDataStep s .err).1.deviceLockHeld = false ∧
    toastCount (updateDataStep s .err).2.1 = 1 ∧
    (updateDataStep s .err).2.1.count (.toast "Lost connection" "error") = 1 ∧
    (updateDataStep s .err).1.state = .closing ∧
    s.selfId ∉ (updateDataStep s .err).1.adapter_list ∧
    (updateDataStep s .err).2.1.count .devRead = 1 ∧
    (updateDataStep s .err).2.2.1 = .exits := by
  have hstep : updateDataStep s .err =
      ({ s with
          state := .closing
          deviceLockHeld := false
          adapter_list := s.adapter_list.erase s.selfId },
       [.acquireDevice, .devRead, .releaseDevice,
        .toast "Lost connection" "error", .configRemove, .deletePlot],
       .exits, .ok ()) := by
    simp [updateDataStep, h1, h2, removeDevice, pyListRemove, hmem]
  rw [hstep]
  exact ⟨rfl, rfl, rfl, rfl, hnd.not_mem_erase, rfl, rfl⟩

theorem capture_failure_fatal_witness :
    (initialAdapter.state = .running ∧ initialAdapter.commandWaiting = false ∧
      initialAdapter.selfId ∈ initialAdapter.adapter_list ∧
      initialAdapter.adapter_list.Nodup) ∧
    ((updateDataStep initialAdapter .err).1.deviceLockHeld = false ∧
     toastCount (updateDataStep initialAdapter .err).2.1 = 1 ∧
     (updateDataStep initialAdapter .err).2.1.count
       (.toast "Lost connection" "error") = 1 ∧
     (updateDataStep initialAdapter .err).1.state = .closing ∧
     initialAdapter.selfId ∉ (updateDataStep initialAdapter .err).1.adapter_list ∧
     (updateDataStep initialAdapter .err).2.1.count .devRead = 1 ∧
     (updateDataStep initialAdapter .err).2.2.1 = .exits) :=
  ⟨⟨by decide, by decide, by decide, by decide⟩,
   capture_failure_fatal initialAdapter (by decide) (by decide) (by decide)
     (by decide)⟩

/-- C6: `state = Closing` is monotone.  Once the state is Closing,
`pause` and `start` return with nothing changed and no device action,
and the acquisition loop's next iteration exits at the `while` guard
performing no capture; `shutdown` and `removeDevice` are the writers
that set Closing. -/
theorem closing_is_terminal (s : Adapter) (h : s.state = .closing) :
    pause s = (s, []) ∧
    start s = (s, []) ∧
    (∀ cap, updateDataStep s cap = (s, [], .exits, .ok ())) ∧
    (shutdown s).1.state = .closing ∧
    (removeDevice s).1.state = .closing := by
  exact ⟨by simp [pause, h], by simp [start, h],
    fun cap => by simp [updateDataStep, h], rfl, removeDevice_state s⟩

theorem closing_is_terminal_witness :
    ((⟨.closing, false, false, none, 0, [0]⟩ : Adapter).state = .closing) ∧
    (pause ⟨.closing, false, false, none, 0, [0]⟩
      = (⟨.closing, false, false, none, 0, [0]⟩, []) ∧
     start ⟨.closing, false, false, none, 0, [0]⟩
      = (⟨.closing, false, false, none, 0, [0]⟩, []) ∧
     (∀ cap, updateDataStep ⟨.closing, false, false, none, 0, [0]⟩ cap
      = (⟨.closing, false, false, none, 0, [0]⟩, [], .exits, .ok ())) ∧
     (shutdown ⟨.closing, false, false, none, 0, [0]⟩).1.state = .closing ∧
     (removeDevice ⟨.closing, false, false, none, 0, [0]⟩).1.state
       = .closing) :=
  ⟨rfl, closing_is_terminal ⟨.closing, false, false, none, 0, [0]⟩ rfl⟩

/-- C2 counterexample: with two requests A = (1, 1) and B = (2, 2), B
issued after A has drained the pending slot but before A's device call
— so before the device finishes applying the first request — the
completed run performs two device calls (`set_waveform 1 1` then
`set_waveform 2 2`), not exactly one, and B does not return
immediately: the claimed property `claimC2Stated` is false. -/
theorem second_request_during_application_not_coalesced :
    ¬ claimC2Stated := by
  intro h
  have := h [(1, 1), (2, 2)] [0, 0, 0, 1, 0, 0, 1, 1, 1, 1]
    (by decide) (by decide) (by decide)
  exact absurd this (by decide)

theorem coalescing_run_witness :
    (([0, 1] : List Nat).Perm (List.range [(1, 1), (2, 2)].length)) ∧
    ((∀ j ∈ [1],
      ((wrun (winit [(1, 1), (2, 2)]) (0 :: [1])).threads[j]?).map
        WThread.phase = some .finished) ∧
    (devSetCalls
        (wrun (wrun (winit [(1, 1), (2, 2)]) (0 :: [1])) [0, 0, 0, 0]).trace
        = [] ∨
     devSetCalls
        (wrun (wrun (winit [(1, 1), (2, 2)]) (0 :: [1])) [0, 0, 0, 0]).trace
        = [[(1, 1), (2, 2)].getD (([1] : List Nat).getLastD 0) (0, 0)]) ∧
    (allFinished
        (wrun (wrun (winit [(1, 1), (2, 2)]) (0 :: [1])) [0, 0, 0, 0]) = true →
     devSetCalls
        (wrun (wrun (winit [(1, 1), (2, 2)]) (0 :: [1])) [0, 0, 0, 0]).trace
        = [[(1, 1), (2, 2)].getD (([1] : List Nat).getLastD 0) (0, 0)])) :=
  ⟨by decide, coalescing_run [(1, 1), (2, 2)] 0 [1] [0, 0, 0, 0] (by decide)⟩

/-- C5: in the command-gate handoff (`grabDeviceLock` followed by the
command's device call), the intent flag `commandWaiting` is cleared and
the ordering lock `queuelock` is released strictly after the device
lock is acquired and strictly before the command's device call, for
both commands that run the handoff (`cal_0`, and `set_waveform` on its
first-update path), whether or not the device call then fails.
(`cal_3v3` never runs the handoff at all — see C1.) -/
theorem gate_handoff_order (s : Adapter) (w hz : Nat) (b : Bool)
    (h : s.target_waveform = none) :
    gateOrderOk (cal_0 s b).2.1 = true ∧
    gateOrderOk (set_waveform s w hz b).2.1 = true := by
  constructor
  · cases b <;> rfl
  · cases b <;> simp only [set_waveform, h] <;> rfl

theorem gate_handoff_order_witness :
    (initialAdapter.target_waveform = none) ∧
    (gateOrderOk (cal_0 initialAdapter false).2.1 = true ∧
     gateOrderOk (set_waveform initialAdapter 5 1000 false).2.1 = true) :=
  ⟨rfl, gate_handoff_order initialAdapter 5 1000 false rfl⟩

/-- C7 counterexample: a failing `calibrate_0` device call in `cal_0` is
not caught: the exception propagates out of the slot, no toast (neither
success nor failure) is emitted, and the device-exclusivity lock is
left held — contradicting "caught, reported to the UI, lock released".
(The state field does remain `running`.) -/
theorem cal0_failure_uncaught :
    (cal_0 initialAdapter true).2.2 = .error "DeviceError" ∧
    (cal_0 initialAdapter true).1.deviceLockHeld = true ∧
    toastCount (cal_0 initialAdapter true).2.1 = 0 ∧
    (cal_0 initialAdapter true).1.state = .running :=
  ⟨rfl, rfl, rfl, rfl⟩

/-- C7 (amended): command device-call failures are not caught and no
failed-command notification is emitted: the exception propagates out of
the Qt slot, the device lock stays held for the commands that acquired
it (`cal_0`, first-path `set_waveform`), and only the `state` field is
untouched (the adapter stays Running in that sense).  `cal_3v3` (which
never acquired the lock, see C1) returns the adapter unchanged;
`set_waveform`'s only toast is the pre-call info toast. -/
theorem command_failure_propagates (s : Adapter) (w hz : Nat)
    (h : s.target_waveform = none) :
    (cal_0 s true).2.2 = .error "DeviceError" ∧
    (cal_0 s true).1.deviceLockHeld = true ∧
    toastCount (cal_0 s true).2.1 = 0 ∧
    (cal_0 s true).1.state = s.state ∧
    (cal_3v3 s true).2.2 = .error "DeviceError" ∧
    toastCount (cal_3v3 s true).2.1 = 0 ∧
    (cal_3v3 s true).1 = s ∧
    (set_waveform s w hz true).2.2 = .error "DeviceError" ∧
    (set_waveform s w hz true).1.deviceLockHeld = true ∧
    toastCount (set_waveform s w hz true).2.1 = 1 ∧
    (set_waveform s w hz true).1.state = s.state := by
  refine ⟨rfl, rfl, rfl, rfl, rfl, rfl, rfl, ?_, ?_, ?_, ?_⟩ <;>
    simp only [set_waveform, h] <;> rfl

theorem command_failure_propagates_witness :
    (initialAdapter.target_waveform = none) ∧
    ((cal_0 initialAdapter true).2.2 = .error "DeviceError" ∧
     (cal_0 initialAdapter true).1.deviceLockHeld = true ∧
     toastCount (cal_0 initialAdapter true).2.1 = 0 ∧
     (cal_0 initialAdapter true).1.state = initialAdapter.state ∧
     (cal_3v3 initialAdapter true).2.2 = .error "DeviceError" ∧
     toastCount (cal_3v3 initialAdapter true).2.1 = 0 ∧
     (cal_3v3 initialAdapter true).1 = initialAdapter ∧
     (set_waveform initialAdapter 5 1000 true).2.2 = .error "DeviceError" ∧
     (set_waveform initialAdapter 5 1000 true).1.deviceLockHeld = true ∧
     toastCount (set_waveform initialAdapter 5 1000 true).2.1 = 1 ∧
     (set_waveform initialAdapter 5 1000 true).1.state
       = initialAdapter.state) :=
  ⟨rfl, command_failure_propagates initialAdapter 5 1000 rfl⟩

/-- C8: a paused loop cycle performs no capture and publishes nothing —
it only sleeps the fixed 300 ms poll interval and re-checks; `pause`
sets Paused and unblocks the capture source; `start` flips the state
back to Running touching nothing else; and a running cycle after
`start` captures again. -/
theorem paused_loop_idles (s : Adapter) (cap : CaptureResult)
    (hp : s.state = .paused)
    (s2 : Adapter) (h2 : s2.state ≠ .closing)
    (hcw : s2.commandWaiting = false) (data : List Int) :
    updateDataStep s cap = (s, [.sleep 300], .continues, .ok ()) ∧
    pause s2 = ({ s2 with state := .paused }, [.unblock]) ∧
    start s2 = ({ s2 with state := .running }, []) ∧
    Event.devRead ∈ (updateDataStep (start s2).1 (.ok data)).2.1 ∧
    (updateDataStep (start s2).1 (.ok data)).2.2.1 = .continues := by
  have hst : (start s2).1 = { s2 with state := .running } := by
    simp [start, h2]
  refine ⟨by simp [updateDataStep, hp], by simp [pause, h2],
    by simp [start, h2], ?_, ?_⟩
  · rw [hst]
    simp [updateDataStep, hcw]
  · rw [hst]
    simp [updateDataStep, hcw]

theorem paused_loop_idles_witness :
    ((⟨.paused, false, false, none, 0, [0]⟩ : Adapter).state = .paused ∧
      initialAdapter.state ≠ .closing ∧
      initialAdapter.commandWaiting = false) ∧
    (updateDataStep ⟨.paused, false, false, none, 0, [0]⟩ (.ok [3])
      = (⟨.paused, false, false, none, 0, [0]⟩, [.sleep 300],
         .continues, .ok ()) ∧
     pause initialAdapter
      = ({ initialAdapter with state := .paused }, [.unblock]) ∧
     start initialAdapter
      = ({ initialAdapter with state := .running }, []) ∧
     Event.devRead ∈ (updateDataStep (start initialAdapter).1 (.ok [3])).2.1 ∧
     (updateDataStep (start initialAdapter).1 (.ok [3])).2.2.1
       = .continues) :=
  ⟨⟨rfl, by decide, rfl⟩,
   paused_loop_idles ⟨.paused, false, false, none, 0, [0]⟩ (.ok [3]) rfl
     initialAdapter (by decide) rfl [3]⟩

/-- C9: on a successful capture in the acquisition loop, the sample
batch is published if and only if it is non-empty; an empty capture is
not an error and emits nothing. -/
theorem publish_iff_nonempty (s : Adapter) (data : List Int)
    (h1 : s.state ≠ .closing) (h2 : s.state ≠ .paused)
    (h3 : s.commandWaiting = false) :
    (updateDataStep s (.ok data)).2.1
      = [.acquireDevice, .devRead]
        ++ (if data.length ≠ 0 then [.dataEmit data] else [])
        ++ [.releaseDevice] ∧
    (Event.dataEmit data ∈ (updateDataStep s (.ok data)).2.1 ↔ data ≠ []) ∧
    (updateDataStep s (.ok data)).2.2 = (.continues, .ok ()) := by
  have htr : (updateDataStep s (.ok data)).2.1
      = [.acquireDevice, .devRead]
        ++ (if data.length ≠ 0 then [.dataEmit data] else [])
        ++ [.releaseDevice] := by
    simp [updateDataStep, h1, h2, h3]
  refine ⟨htr, ?_, by simp [updateDataStep, h1, h2, h3]⟩
  rw [htr]
  by_cases hd : data = []
  · subst hd
    simp
  · have hlen : data.length ≠ 0 := by simpa using hd
    simp [hlen, hd]

theorem publish_iff_nonempty_witness :
    (initialAdapter.state ≠ .closing ∧ initialAdapter.state ≠ .paused ∧
      initialAdapter.commandWaiting = false) ∧
    ((updateDataStep initialAdapter (.ok [7])).2.1
      = [.acquireDevice, .devRead]
        ++ (if ([7] : List Int).length ≠ 0 then [.dataEmit [7]] else [])
        ++ [.releaseDevice] ∧
     (Event.dataEmit [7] ∈ (updateDataStep initialAdapter (.ok [7])).2.1 ↔
       ([7] : List Int) ≠ []) ∧
     (updateDataStep initialAdapter (.ok [7])).2.2
       = (.continues, .ok ())) :=
  ⟨⟨by decide, by decide, rfl⟩,
   publish_iff_nonempty initialAdapter [7] (by decide) (by decide) rfl⟩

/-- C10: `shutdown` only sets Closing, unblocks the capture source and
joins the background thread; it leaves registry membership unchanged.
So do `pause`, `start`, both calibrations, `set_waveform` and a
successful acquisition cycle: the adapter list changes only through the
removal path (`removeDevice`). -/
theorem shutdown_preserves_registry (s : Adapter) (w hz : Nat) (b : Bool) :
    shutdown s = ({ s with state := .closing }, [.unblock, .threadJoin]) ∧
    (shutdown s).1.adapter_list = s.adapter_list ∧
    (pause s).1.adapter_list = s.adapter_list ∧
    (start s).1.adapter_list = s.adapter_list ∧
    (cal_0 s b).1.adapter_list = s.adapter_list ∧
    (cal_3v3 s b).1.adapter_list = s.adapter_list ∧
    (set_waveform s w hz b).1.adapter_list = s.adapter_list ∧
    (∀ data, (updateDataStep s (.ok data)).1.adapter_list
      = s.adapter_list) := by
  refine ⟨rfl, rfl, ?_, ?_, ?_, ?_, ?_, ?_⟩
  · unfold pause
    split <;> rfl
  · unfold start
    split <;> rfl
  · cases b <;> rfl
  · cases b
    · unfold cal_3v3
      simp only [Bool.false_eq_true, if_false]
      split <;> rfl
    · rfl
  · rcases htw : s.target_waveform with _ | v <;> cases b <;>
      simp only [set_waveform, htw] <;> rfl
  · intro data
    unfold updateDataStep
    split
    · rfl
    · split
      · rfl
      · split <;> rfl

end FleaScopeLive
